import Mathlib

/-!
# Verification of the arbitrage-bot core

A shallow embedding, in Lean 4, of the decision-and-execution pipeline of the
arbitrage bot: arbitrage detection (`src/core/arbitrage_engine.py`), order
execution (`src/core/order_executor.py`), market matching
(`src/core/market_monitor.py`) and the TTL cache (`src/utils/cache.py`).

Python `Decimal` values are modelled as rationals (`ℚ`); Python `None` /
missing dictionary keys are modelled with `Option`; Python truthiness of
`Decimal`, `dict`, `str` and `None` is modelled explicitly where the source
relies on it.  Asynchronous venue calls are modelled by passing each call's
outcome (a value or a raised exception) as an explicit argument, and the
current clock reading (`datetime.now()`) as an explicit rational timestamp.
-/

/-! ## Arbitrage engine (`src/core/arbitrage_engine.py`) -/

/-- `Opportunity` dataclass: an immutable detected arbitrage. -/
structure Opportunity where
  type : String
  limitless_side : String
  limitless_price : ℚ
  polymarket_side : String
  polymarket_price : ℚ
  total_cost : ℚ
  spread_pct : ℚ
  profit_pct : ℚ
deriving DecidableEq, Repr

/-- A venue's price dictionary: `prices.get('yes_ask')` / `prices.get('no_ask')`
may each be missing (or `None`). -/
structure PriceDict where
  yes_ask : Option ℚ
  no_ask : Option ℚ
deriving DecidableEq, Repr

/-- `ArbitrageEngine.calculate_spread`: percentage spread between two prices.
The Python guard `not price1 or not price2 or price1 <= 0 or price2 <= 0`
(truthiness of `Decimal('0')` included) is kept in source order. -/
def calculate_spread (price1 price2 : ℚ) : ℚ :=
  if price1 = 0 ∨ price2 = 0 ∨ price1 ≤ 0 ∨ price2 ≤ 0 then 0
  else if (price1 + price2) / 2 = 0 then 0
  else |price1 - price2| / ((price1 + price2) / 2) * 100

/-- `ArbitrageEngine._evaluate_scenario`: evaluate one arbitrage scenario.
`not lim_price or not poly_price` rejects both `None` and `Decimal('0')`. -/
def evaluate_scenario (min_spread_pct : ℚ) (lim_price poly_price : Option ℚ)
    (scenario_type lim_side poly_side : String) : Option Opportunity :=
  match lim_price, poly_price with
  | some lp, some pp =>
    if lp = 0 ∨ pp = 0 then none
    else
      let total_cost := lp + pp
      if 1 ≤ total_cost then none
      else
        let profit_pct := (1 - total_cost) / total_cost * 100
        let poly_implied := 1 - pp
        let spread := calculate_spread lp poly_implied
        if spread < min_spread_pct then none
        else some {
          type := scenario_type
          limitless_side := lim_side
          limitless_price := lp
          polymarket_side := poly_side
          polymarket_price := pp
          total_cost := total_cost
          spread_pct := spread
          profit_pct := profit_pct }
  | _, _ => none

/-- `ArbitrageEngine.find_arbitrage`: evaluate both complementary scenarios and
return the more profitable qualifying one (Python `max` keeps the first
element on a tie, so scenario 1 wins ties). -/
def find_arbitrage (min_spread_pct : ℚ) (lim_prices poly_prices : PriceDict) :
    Option Opportunity :=
  match evaluate_scenario min_spread_pct lim_prices.yes_ask poly_prices.no_ask
      "YES_LIMITLESS_NO_POLYMARKET" "YES" "NO",
    evaluate_scenario min_spread_pct lim_prices.no_ask poly_prices.yes_ask
      "NO_LIMITLESS_YES_POLYMARKET" "NO" "YES" with
  | none, none => none
  | some a, none => some a
  | none, some b => some b
  | some a, some b => if b.profit_pct > a.profit_pct then some b else some a

lemma evaluate_scenario_none_of_one_le {min_spread_pct a b : ℚ}
    {t s1 s2 : String} (h : 1 ≤ a + b) :
    evaluate_scenario min_spread_pct (some a) (some b) t s1 s2 = none := by
  simp only [evaluate_scenario]
  split_ifs <;> rfl

lemma evaluate_scenario_eq_some {min_spread_pct : ℚ} {l p : Option ℚ}
    {t s1 s2 : String} {o : Opportunity}
    (h : evaluate_scenario min_spread_pct l p t s1 s2 = some o) :
    o.total_cost = o.limitless_price + o.polymarket_price ∧
    o.total_cost < 1 ∧
    o.profit_pct = (1 - o.total_cost) / o.total_cost * 100 ∧
    o.spread_pct = calculate_spread o.limitless_price (1 - o.polymarket_price) ∧
    min_spread_pct ≤ o.spread_pct := by
  match l, p with
  | none, none => simp [evaluate_scenario] at h
  | none, some pp => simp [evaluate_scenario] at h
  | some lp, none => simp [evaluate_scenario] at h
  | some lp, some pp =>
    simp only [evaluate_scenario] at h
    split_ifs at h with h1 h2 h3
    injection h with h
    subst h
    refine ⟨rfl, by simpa using not_le.mp h2, rfl, rfl, not_lt.mp h3⟩

/-- C1: if, for both scenarios, any pair of present leg prices sums to at
least `1.0`, then `find_arbitrage` returns `none`; the bound is strict, so
legs summing to exactly `1.00` yield no opportunity. -/
theorem find_arbitrage_none_of_no_edge (min_spread_pct : ℚ)
    (lim_prices poly_prices : PriceDict)
    (h1 : ∀ a b : ℚ, lim_prices.yes_ask = some a → poly_prices.no_ask = some b →
      1 ≤ a + b)
    (h2 : ∀ a b : ℚ, lim_prices.no_ask = some a → poly_prices.yes_ask = some b →
      1 ≤ a + b) :
    find_arbitrage min_spread_pct lim_prices poly_prices = none := by
  have e1 : evaluate_scenario min_spread_pct lim_prices.yes_ask poly_prices.no_ask
      "YES_LIMITLESS_NO_POLYMARKET" "YES" "NO" = none := by
    cases hy : lim_prices.yes_ask with
    | none => rfl
    | some a =>
      cases hn : poly_prices.no_ask with
      | none => rfl
      | some b => exact evaluate_scenario_none_of_one_le (h1 a b hy hn)
  have e2 : evaluate_scenario min_spread_pct lim_prices.no_ask poly_prices.yes_ask
      "NO_LIMITLESS_YES_POLYMARKET" "NO" "YES" = none := by
    cases hy : lim_prices.no_ask with
    | none => rfl
    | some a =>
      cases hn : poly_prices.yes_ask with
      | none => rfl
      | some b => exact evaluate_scenario_none_of_one_le (h2 a b hy hn)
  simp only [find_arbitrage, e1, e2]

/-- C1 witness: legs summing to exactly `1.00` in both scenarios yield no
opportunity. -/
theorem find_arbitrage_none_of_no_edge_witness :
    find_arbitrage 3 ⟨some (55/100), some (45/100)⟩ ⟨some (55/100), some (45/100)⟩
      = none :=
  find_arbitrage_none_of_no_edge 3 _ _
    (by intro a b ha hb; injection ha with ha; injection hb with hb; rw [← ha, ← hb]; norm_num)
    (by intro a b ha hb; injection ha with ha; injection hb with hb; rw [← ha, ← hb]; norm_num)

/-- C2: every opportunity returned by `find_arbitrage` has
`total_cost = limitless_price + polymarket_price < 1`,
`profit_pct = (1 − total_cost)/total_cost × 100` exactly, and a
`spread_pct`, computed between the Limitless leg price and the complementary
Polymarket implied probability, at least the configured minimum. -/
theorem find_arbitrage_opportunity_invariants (min_spread_pct : ℚ)
    (lim_prices poly_prices : PriceDict) (o : Opportunity)
    (h : find_arbitrage min_spread_pct lim_prices poly_prices = some o) :
    o.total_cost = o.limitless_price + o.polymarket_price ∧
    o.total_cost < 1 ∧
    o.profit_pct = (1 - o.total_cost) / o.total_cost * 100 ∧
    o.spread_pct = calculate_spread o.limitless_price (1 - o.polymarket_price) ∧
    min_spread_pct ≤ o.spread_pct := by
  cases he1 : evaluate_scenario min_spread_pct lim_prices.yes_ask poly_prices.no_ask
      "YES_LIMITLESS_NO_POLYMARKET" "YES" "NO" with
  | none =>
    cases he2 : evaluate_scenario min_spread_pct lim_prices.no_ask poly_prices.yes_ask
        "NO_LIMITLESS_YES_POLYMARKET" "NO" "YES" with
    | none =>
      simp only [find_arbitrage, he1, he2] at h
      exact Option.noConfusion h
    | some b =>
      simp only [find_arbitrage, he1, he2, Option.some_inj] at h
      subst h
      exact evaluate_scenario_eq_some he2
  | some a =>
    cases he2 : evaluate_scenario min_spread_pct lim_prices.no_ask poly_prices.yes_ask
        "NO_LIMITLESS_YES_POLYMARKET" "NO" "YES" with
    | none =>
      simp only [find_arbitrage, he1, he2, Option.some_inj] at h
      subst h
      exact evaluate_scenario_eq_some he1
    | some b =>
      simp only [find_arbitrage, he1, he2] at h
      by_cases hp : b.profit_pct > a.profit_pct
      · rw [if_pos hp, Option.some_inj] at h
        subst h
        exact evaluate_scenario_eq_some he2
      · rw [if_neg hp, Option.some_inj] at h
        subst h
        exact evaluate_scenario_eq_some he1

/-- C2 witness: the spec's worked example, Limitless `yes_ask = 0.40` with
Polymarket `no_ask = 0.45` at a 3% minimum spread. -/
theorem find_arbitrage_opportunity_invariants_witness :
    (Opportunity.mk "YES_LIMITLESS_NO_POLYMARKET" "YES" (2/5) "NO" (9/20)
        (17/20) (600/19) (300/17)).total_cost
      = (Opportunity.mk "YES_LIMITLESS_NO_POLYMARKET" "YES" (2/5) "NO" (9/20)
        (17/20) (600/19) (300/17)).limitless_price
        + (Opportunity.mk "YES_LIMITLESS_NO_POLYMARKET" "YES" (2/5) "NO" (9/20)
        (17/20) (600/19) (300/17)).polymarket_price ∧
    (Opportunity.mk "YES_LIMITLESS_NO_POLYMARKET" "YES" (2/5) "NO" (9/20)
        (17/20) (600/19) (300/17)).total_cost < 1 ∧
    (Opportunity.mk "YES_LIMITLESS_NO_POLYMARKET" "YES" (2/5) "NO" (9/20)
        (17/20) (600/19) (300/17)).profit_pct
      = (1 - (17/20 : ℚ)) / (17/20) * 100 ∧
    (Opportunity.mk "YES_LIMITLESS_NO_POLYMARKET" "YES" (2/5) "NO" (9/20)
        (17/20) (600/19) (300/17)).spread_pct
      = calculate_spread (2/5) (1 - (9/20)) ∧
    (3 : ℚ) ≤ (Opportunity.mk "YES_LIMITLESS_NO_POLYMARKET" "YES" (2/5) "NO" (9/20)
        (17/20) (600/19) (300/17)).spread_pct :=
  find_arbitrage_opportunity_invariants 3 ⟨some (2/5), none⟩ ⟨none, some (9/20)⟩ _
    (by norm_num [find_arbitrage, evaluate_scenario, calculate_spread, abs_of_nonneg])

/-- C9: `calculate_spread(p, p) = 0` for positive `p`; `calculate_spread` is
symmetric; and a non-positive argument or a zero mean yields zero spread
instead of a division by zero. -/
theorem calculate_spread_spec :
    (∀ p : ℚ, 0 < p → calculate_spread p p = 0) ∧
    (∀ a b : ℚ, calculate_spread a b = calculate_spread b a) ∧
    (∀ a b : ℚ, a ≤ 0 ∨ b ≤ 0 ∨ (a + b) / 2 = 0 → calculate_spread a b = 0) := by
  refine ⟨?_, ?_, ?_⟩
  · intro p hp
    have h1 : ¬(p = 0 ∨ p = 0 ∨ p ≤ 0 ∨ p ≤ 0) := by
      push_neg
      exact ⟨hp.ne', hp.ne', hp, hp⟩
    have h2 : ¬((p + p) / 2 = 0) := by
      intro hc
      have : p = 0 := by linarith
      exact hp.ne' this
    rw [calculate_spread, if_neg h1, if_neg h2]
    simp
  · intro a b
    unfold calculate_spread
    by_cases h : a = 0 ∨ b = 0 ∨ a ≤ 0 ∨ b ≤ 0
    · rw [if_pos h, if_pos (show b = 0 ∨ a = 0 ∨ b ≤ 0 ∨ a ≤ 0 by tauto)]
    · rw [if_neg h, if_neg (show ¬(b = 0 ∨ a = 0 ∨ b ≤ 0 ∨ a ≤ 0) by tauto)]
      by_cases hm : (a + b) / 2 = 0
      · rw [if_pos hm, if_pos (show (b + a) / 2 = 0 by rw [add_comm b a]; exact hm)]
      · rw [if_neg hm, if_neg (show ¬((b + a) / 2 = 0) by rw [add_comm b a]; exact hm)]
        rw [add_comm b a, abs_sub_comm b a]
  · intro a b h
    unfold calculate_spread
    split_ifs with h1 h2
    · rfl
    · rfl
    · exact absurd h (by tauto)

/-- C9 witness: `calculate_spread 2 2 = 0`, symmetry at `(1/4, 3/4)`, and a
negative first argument yields zero spread. -/
theorem calculate_spread_spec_witness :
    calculate_spread 2 2 = 0 ∧
    calculate_spread (1/4) (3/4) = calculate_spread (3/4) (1/4) ∧
    calculate_spread (-1) (1/2) = 0 :=
  ⟨calculate_spread_spec.1 2 (by norm_num),
   calculate_spread_spec.2.1 (1/4) (3/4),
   calculate_spread_spec.2.2 (-1) (1/2) (Or.inl (by norm_num))⟩

/-- Round a rational to the nearest integer, ties to the even integer.  This
is `ROUND_HALF_EVEN`, the default rounding of Python's `Decimal` context,
which `Decimal.quantize` uses in `calculate_bet_size`. -/
def roundHalfEven (q : ℚ) : ℤ :=
  if q - ⌊q⌋ < 1/2 then ⌊q⌋
  else if 1/2 < q - ⌊q⌋ then ⌊q⌋ + 1
  else if ⌊q⌋ % 2 = 0 then ⌊q⌋ else ⌊q⌋ + 1

/-- `Decimal.quantize(Decimal('0.01'))`: round to 2 decimal places with the
default `ROUND_HALF_EVEN` rounding. -/
def quantize2 (q : ℚ) : ℚ := (roundHalfEven (q * 100) : ℚ) / 100

/-- `ArbitrageEngine.calculate_bet_size`: max bet reduced by the slippage
percentage, halved (one order per leg), rounded to 2 decimals.  The
`opportunity` argument is accepted, as in the source, but never read. -/
def calculate_bet_size (max_bet slippage : ℚ) (opportunity : Opportunity) : ℚ :=
  let slippage_factor := 1 - slippage / 100
  let adjusted_max := max_bet * slippage_factor
  let bet_per_side := adjusted_max / 2
  quantize2 bet_per_side

lemma floor_le_roundHalfEven (q : ℚ) : ⌊q⌋ ≤ roundHalfEven q := by
  unfold roundHalfEven
  split_ifs <;> omega

lemma roundHalfEven_le_floor_add_one (q : ℚ) : roundHalfEven q ≤ ⌊q⌋ + 1 := by
  unfold roundHalfEven
  split_ifs <;> omega

lemma roundHalfEven_mono {x y : ℚ} (h : x ≤ y) : roundHalfEven x ≤ roundHalfEven y := by
  rcases eq_or_lt_of_le (Int.floor_mono h : ⌊x⌋ ≤ ⌊y⌋) with heq | hlt
  · have hxy : x - (⌊x⌋ : ℚ) ≤ y - (⌊x⌋ : ℚ) := by linarith
    unfold roundHalfEven
    rw [← heq]
    split_ifs <;> first | omega | (exfalso; linarith)
  · have h1 := roundHalfEven_le_floor_add_one x
    have h2 := floor_le_roundHalfEven y
    omega

lemma quantize2_mono {x y : ℚ} (h : x ≤ y) : quantize2 x ≤ quantize2 y := by
  unfold quantize2
  have h1 : roundHalfEven (x * 100) ≤ roundHalfEven (y * 100) :=
    roundHalfEven_mono (by linarith)
  have h2 : ((roundHalfEven (x * 100) : ℤ) : ℚ) ≤ ((roundHalfEven (y * 100) : ℤ) : ℚ) := by
    exact_mod_cast h1
  linarith

/-- C7: `calculate_bet_size` equals the max bet reduced by the slippage
percentage, halved and rounded to 2 decimals by a deterministic rule
(`ROUND_HALF_EVEN`); it ignores its opportunity argument; and for a fixed
non-negative max bet it is monotonically non-increasing in the slippage
parameter. -/
theorem calculate_bet_size_spec (max_bet s1 s2 : ℚ) (o1 o2 : Opportunity)
    (hmb : 0 ≤ max_bet) (hs : s1 ≤ s2) :
    calculate_bet_size max_bet s1 o1 = quantize2 (max_bet * (1 - s1 / 100) / 2) ∧
    calculate_bet_size max_bet s1 o1 = calculate_bet_size max_bet s1 o2 ∧
    calculate_bet_size max_bet s2 o2 ≤ calculate_bet_size max_bet s1 o1 := by
  refine ⟨rfl, rfl, ?_⟩
  unfold calculate_bet_size
  apply quantize2_mono
  have h1 : 1 - s2 / 100 ≤ 1 - s1 / 100 := by linarith
  have h2 := mul_le_mul_of_nonneg_left h1 hmb
  linarith

/-- C7 witness: max bet `100`, slippage `2%` versus `5%`, two distinct
opportunity arguments. -/
theorem calculate_bet_size_spec_witness :
    calculate_bet_size 100 2 (Opportunity.mk "A" "YES" 0 "NO" 0 0 0 0)
      = quantize2 (100 * (1 - 2 / 100) / 2) ∧
    calculate_bet_size 100 2 (Opportunity.mk "A" "YES" 0 "NO" 0 0 0 0)
      = calculate_bet_size 100 2 (Opportunity.mk "B" "NO" 1 "YES" 1 1 1 1) ∧
    calculate_bet_size 100 5 (Opportunity.mk "B" "NO" 1 "YES" 1 1 1 1)
      ≤ calculate_bet_size 100 2 (Opportunity.mk "A" "YES" 0 "NO" 0 0 0 0) :=
  calculate_bet_size_spec 100 2 5 (Opportunity.mk "A" "YES" 0 "NO" 0 0 0 0)
    (Opportunity.mk "B" "NO" 1 "YES" 1 1 1 1) (by norm_num) (by norm_num)

/-! ## Order executor (`src/core/order_executor.py`)

A venue order confirmation is a Python dict, modelled as an association
list; Python truthiness of a dict (`bool({}) = False`) is modelled by
`dictTruthy`.  An order submission either returns a confirmation or raises,
modelled by `LegOutcome`.  The `asyncio.wait_for` timeout is modelled by an
explicit `timedOut` flag: when it is set the result is produced by the
`asyncio.TimeoutError` handler no matter what the two venue calls did. -/

/-- A Python dict used as an order confirmation. -/
abbrev OrderDict := List (String × String)

/-- Outcome of one venue `place_order` call: a returned confirmation or a
raised exception. -/
inductive LegOutcome where
  | ok : OrderDict → LegOutcome
  | err : String → LegOutcome
deriving DecidableEq, Repr

/-- Python truthiness of an `Optional[Dict]`: `None` and `{}` are falsy. -/
def dictTruthy : Option OrderDict → Bool
  | none => false
  | some d => !d.isEmpty

/-- Python truthiness of an `Optional[str]`: `None` and `''` are falsy. -/
def strTruthy : Option String → Bool
  | none => false
  | some s => !(s == "")

/-- `ExecutionResult` dataclass. -/
structure ExecutionResult where
  success : Bool
  limitless_order : Option OrderDict
  polymarket_order : Option OrderDict
  error : Option String := none
  bet_size : Option ℚ := none
deriving DecidableEq, Repr

/-- `ExecutionResult.both_filled`: `bool(limitless_order and polymarket_order)`. -/
def ExecutionResult.both_filled (r : ExecutionResult) : Bool :=
  dictTruthy r.limitless_order && dictTruthy r.polymarket_order

/-- `OrderExecutor._execute_limitless_order`: the venue call's outcome with a
raised exception caught and normalized to `None`. -/
def execute_limitless_order : LegOutcome → Option OrderDict
  | .ok d => some d
  | .err _ => none

/-- `OrderExecutor._execute_polymarket_order`: same normalization for the
Polymarket leg. -/
def execute_polymarket_order : LegOutcome → Option OrderDict
  | .ok d => some d
  | .err _ => none

/-- Python `str.upper()` on ASCII strings: uppercase every character.
(Extensionally `String.toUpper`, restated over the character list.) -/
def pyUpper (s : String) : String := String.mk (s.data.map Char.toUpper)

/-- `OrderExecutor._get_polymarket_token_id`: token index 1 for YES, 0 for
NO; fewer than two tokens is invalid; each token's `token_id` may be absent. -/
def get_polymarket_token_id (tokens : List (Option String)) (side : String) :
    Option String :=
  if tokens.length < 2 then none
  else
    let token_idx : Nat := if pyUpper side == "YES" then 1 else 0
    (tokens.get? token_idx).join

/-- `OrderExecutor.execute_arbitrage`: resolve the Polymarket token, then run
both legs concurrently under one timeout.  `poly_tokens` is the matched
Polymarket market's token list; `limLeg` / `polyLeg` are the two venue
calls' outcomes; `timedOut` selects the `asyncio.TimeoutError` branch. -/
def execute_arbitrage (opportunity : Opportunity) (bet_size : ℚ)
    (poly_tokens : List (Option String)) (limLeg polyLeg : LegOutcome)
    (timedOut : Bool) : ExecutionResult :=
  let poly_token_id := get_polymarket_token_id poly_tokens opportunity.polymarket_side
  if strTruthy poly_token_id = false then
    { success := false, limitless_order := none, polymarket_order := none,
      error := some "Invalid Polymarket token ID" }
  else if timedOut then
    { success := false, limitless_order := none, polymarket_order := none,
      error := some "Execution timeout", bet_size := some bet_size }
  else
    let lim_result := execute_limitless_order limLeg
    let poly_result := execute_polymarket_order polyLeg
    { success := dictTruthy lim_result && dictTruthy poly_result,
      limitless_order := lim_result, polymarket_order := poly_result,
      bet_size := some bet_size }

/-- C3: when the Limitless leg returns a confirmation and the Polymarket leg
raises (no timeout), the result has `success = false`, the Limitless
confirmation present, the Polymarket confirmation absent and
`both_filled = false`: the raised exception is normalized to absence, never
propagated. -/
theorem execute_arbitrage_leg_failure (opportunity : Opportunity) (bet_size : ℚ)
    (poly_tokens : List (Option String)) (d : OrderDict) (e : String)
    (htok : strTruthy (get_polymarket_token_id poly_tokens
      opportunity.polymarket_side) = true) :
    execute_arbitrage opportunity bet_size poly_tokens (.ok d) (.err e) false
      = { success := false, limitless_order := some d, polymarket_order := none,
          error := none, bet_size := some bet_size } ∧
    (execute_arbitrage opportunity bet_size poly_tokens (.ok d) (.err e)
      false).both_filled = false := by
  have h : execute_arbitrage opportunity bet_size poly_tokens (.ok d) (.err e) false
      = { success := false, limitless_order := some d, polymarket_order := none,
          error := none, bet_size := some bet_size } := by
    simp [execute_arbitrage, htok, execute_limitless_order,
      execute_polymarket_order, dictTruthy]
  refine ⟨h, ?_⟩
  rw [h]
  simp [ExecutionResult.both_filled, dictTruthy]

/-- C3 witness: a two-token market, a confirmed Limitless order and a
Polymarket submission that raises. -/
theorem execute_arbitrage_leg_failure_witness :
    execute_arbitrage (Opportunity.mk "YES_LIMITLESS_NO_POLYMARKET" "YES" (2/5)
        "NO" (9/20) (17/20) (600/19) (300/17)) 49
        [some "tok0", some "tok1"] (.ok [("id", "L1")]) (.err "http 500") false
      = { success := false, limitless_order := some [("id", "L1")],
          polymarket_order := none, error := none, bet_size := some 49 } ∧
    (execute_arbitrage (Opportunity.mk "YES_LIMITLESS_NO_POLYMARKET" "YES" (2/5)
        "NO" (9/20) (17/20) (600/19) (300/17)) 49
        [some "tok0", some "tok1"] (.ok [("id", "L1")]) (.err "http 500")
        false).both_filled = false :=
  execute_arbitrage_leg_failure _ 49 [some "tok0", some "tok1"]
    [("id", "L1")] "http 500" (by decide)

/-- C4: when the two-leg wait times out (and the token resolved), the result
reports failure with the timeout-specific error and both legs absent,
whatever the two underlying venue calls did. -/
theorem execute_arbitrage_timeout (opportunity : Opportunity) (bet_size : ℚ)
    (poly_tokens : List (Option String)) (limLeg polyLeg : LegOutcome)
    (htok : strTruthy (get_polymarket_token_id poly_tokens
      opportunity.polymarket_side) = true) :
    execute_arbitrage opportunity bet_size poly_tokens limLeg polyLeg true
      = { success := false, limitless_order := none, polymarket_order := none,
          error := some "Execution timeout", bet_size := some bet_size } ∧
    (execute_arbitrage opportunity bet_size poly_tokens limLeg polyLeg
      true).both_filled = false := by
  have h : execute_arbitrage opportunity bet_size poly_tokens limLeg polyLeg true
      = { success := false, limitless_order := none, polymarket_order := none,
          error := some "Execution timeout", bet_size := some bet_size } := by
    simp [execute_arbitrage, htok]
  refine ⟨h, ?_⟩
  rw [h]
  simp [ExecutionResult.both_filled, dictTruthy]

/-- C4 witness: a timed-out execution in which both venue calls in fact
completed successfully; the result still reports the timeout failure. -/
theorem execute_arbitrage_timeout_witness :
    execute_arbitrage (Opportunity.mk "NO_LIMITLESS_YES_POLYMARKET" "NO" (2/5)
        "YES" (9/20) (17/20) (600/19) (300/17)) 49
        [some "tok0", some "tok1"] (.ok [("id", "L1")]) (.ok [("orderID", "P1")]) true
      = { success := false, limitless_order := none, polymarket_order := none,
          error := some "Execution timeout", bet_size := some 49 } ∧
    (execute_arbitrage (Opportunity.mk "NO_LIMITLESS_YES_POLYMARKET" "NO" (2/5)
        "YES" (9/20) (17/20) (600/19) (300/17)) 49
        [some "tok0", some "tok1"] (.ok [("id", "L1")]) (.ok [("orderID", "P1")])
        true).both_filled = false :=
  execute_arbitrage_timeout _ 49 [some "tok0", some "tok1"]
    (.ok [("id", "L1")]) (.ok [("orderID", "P1")]) (by decide)

/-! ## Market monitor (`src/core/market_monitor.py`)

The monitor is generic in the two venues' market record types (`α` for
Limitless, `β` for Polymarket).  Title parsing (`parse_strike_and_time`
composed with the venue's title key) is a regex over display text; it is
taken as a function argument `α → Option (ℚ × String)` returning the parsed
(strike, time-slot) pair.  Python dicts keyed by time slot are association
lists with unique keys, built in insertion order exactly as the source's
`_build_time_strike_map` loop does. -/

/-- `MarketMatch` dataclass. -/
structure MarketMatch (α β : Type) where
  limitless : α
  polymarket : β
  strike_limitless : ℚ
  strike_polymarket : ℚ
  strike_diff : ℚ
  time : String
deriving DecidableEq, Repr

/-- `time_map.setdefault(t, []).append(e)` on an insertion-ordered dict:
append to the existing entry for `t`, or add a new key at the end. -/
def addToMap {α : Type} (m : List (String × List (ℚ × α))) (t : String)
    (e : ℚ × α) : List (String × List (ℚ × α)) :=
  match m with
  | [] => [(t, [e])]
  | (k, l) :: rest =>
    if k = t then (k, l ++ [e]) :: rest else (k, l) :: addToMap rest t e

/-- One iteration of the `_build_time_strike_map` loop: parse the market's
title; on success append `(strike, market)` under its time slot, otherwise
drop the market silently. -/
def build_step {α : Type} (parse : α → Option (ℚ × String))
    (m : List (String × List (ℚ × α))) (market : α) :
    List (String × List (ℚ × α)) :=
  match parse market with
  | none => m
  | some (strike, time_slot) => addToMap m time_slot (strike, market)

/-- `MarketMonitor._build_time_strike_map`: fold the loop body over the
markets, starting from the empty dict. -/
def build_time_strike_map {α : Type} (parse : α → Option (ℚ × String))
    (markets : List α) : List (String × List (ℚ × α)) :=
  markets.foldl (build_step parse) []

/-- Dict lookup (`m[t]` / `t in m`) on an association list. -/
def lookupMap {γ : Type} (m : List (String × γ)) (t : String) : Option γ :=
  match m with
  | [] => none
  | (k, v) :: rest => if k = t then some v else lookupMap rest t

/-- `MarketMonitor.find_matching_markets`: the two fetches arrive as
`Except` values (`asyncio.gather(..., return_exceptions=True)`); an
exception on either venue yields `[]`.  Otherwise build both time-slot maps
and, for every slot present in both, emit a `MarketMatch` for every
cross-product pair within the strike threshold (inclusive). -/
def find_matching_markets {α β : Type} (max_strike_diff : ℚ)
    (parseLim : α → Option (ℚ × String)) (parsePoly : β → Option (ℚ × String))
    (limFetch : Except String (List α)) (polyFetch : Except String (List β)) :
    List (MarketMatch α β) :=
  match limFetch with
  | .error _ => []
  | .ok lim_markets =>
    match polyFetch with
    | .error _ => []
    | .ok poly_markets =>
      let lim_map := build_time_strike_map parseLim lim_markets
      let poly_map := build_time_strike_map parsePoly poly_markets
      lim_map.flatMap (fun p =>
        match lookupMap poly_map p.1 with
        | none => []
        | some poly_list =>
          p.2.flatMap (fun le =>
            poly_list.filterMap (fun pe =>
              if |le.1 - pe.1| ≤ max_strike_diff then
                some (MarketMatch.mk le.2 pe.2 le.1 pe.1 (|le.1 - pe.1|) p.1)
              else none)))

/-- C5: if either venue's market fetch raised, `find_matching_markets`
returns the empty list for the cycle (the embedding's total return type
shows no exception escapes). -/
theorem find_matching_markets_fetch_failure {α β : Type} (max_strike_diff : ℚ)
    (parseLim : α → Option (ℚ × String)) (parsePoly : β → Option (ℚ × String))
    (limFetch : Except String (List α)) (polyFetch : Except String (List β))
    (h : (∃ e, limFetch = .error e) ∨ (∃ e, polyFetch = .error e)) :
    find_matching_markets max_strike_diff parseLim parsePoly limFetch polyFetch
      = [] := by
  rcases h with ⟨e, rfl⟩ | ⟨e, rfl⟩
  · rfl
  · cases limFetch with
    | error e' => rfl
    | ok lim_markets => rfl

/-- C5 witness: a failed Limitless fetch against a non-empty Polymarket
fetch yields no matches. -/
theorem find_matching_markets_fetch_failure_witness :
    find_matching_markets (α := ℚ × String) (β := ℚ × String) 1 some some
      (.error "connection reset") (.ok [((100 : ℚ), "10:00")]) = [] :=
  find_matching_markets_fetch_failure 1 some some _ _
    (Or.inl ⟨"connection reset", rfl⟩)

lemma lookupMap_addToMap_self {α : Type} (m : List (String × List (ℚ × α)))
    (t : String) (e : ℚ × α) :
    lookupMap (addToMap m t e) t = some ((lookupMap m t).getD [] ++ [e]) := by
  induction m with
  | nil => simp [addToMap, lookupMap]
  | cons hd tl ih =>
    obtain ⟨k, l⟩ := hd
    by_cases hk : k = t
    · subst hk
      simp [addToMap, lookupMap]
    · simp [addToMap, lookupMap, hk, ih]

lemma lookupMap_addToMap_ne {α : Type} (m : List (String × List (ℚ × α)))
    (t t' : String) (e : ℚ × α) (h : t' ≠ t) :
    lookupMap (addToMap m t e) t' = lookupMap m t' := by
  induction m with
  | nil =>
    simp only [addToMap, lookupMap]
    rw [if_neg (fun hc : t = t' => h hc.symm)]
  | cons hd tl ih =>
    obtain ⟨k, l⟩ := hd
    by_cases hk : k = t
    · subst hk
      simp only [addToMap, if_pos rfl, lookupMap]
      rw [if_neg (fun hc : k = t' => h hc.symm), if_neg (fun hc : k = t' => h hc.symm)]
    · simp only [addToMap, if_neg hk, lookupMap]
      by_cases hk' : k = t'
      · rw [if_pos hk', if_pos hk']
      · rw [if_neg hk', if_neg hk']
        exact ih

lemma build_foldl_mem_preserved {α : Type} (parse : α → Option (ℚ × String))
    (markets : List α) (acc : List (String × List (ℚ × α))) (t : String)
    (x : ℚ × α) (ll : List (ℚ × α))
    (h : lookupMap acc t = some ll) (hx : x ∈ ll) :
    ∃ ll', lookupMap (markets.foldl (build_step parse) acc) t = some ll' ∧
      x ∈ ll' := by
  induction markets generalizing acc ll with
  | nil => exact ⟨ll, h, hx⟩
  | cons m ms ih =>
    simp only [List.foldl_cons]
    cases hp : parse m with
    | none =>
      simp only [build_step, hp]
      exact ih _ _ h hx
    | some st =>
      obtain ⟨s, ts⟩ := st
      simp only [build_step, hp]
      by_cases ht : t = ts
      · subst ht
        refine ih _ (((lookupMap acc t).getD []) ++ [(s, m)])
          (lookupMap_addToMap_self acc t (s, m)) ?_
        rw [h]
        exact List.mem_append_left _ hx
      · exact ih _ ll ((lookupMap_addToMap_ne acc ts t (s, m) ht).trans h) hx

lemma build_foldl_mem {α : Type} (parse : α → Option (ℚ × String))
    (markets : List α) (acc : List (String × List (ℚ × α))) (market : α)
    (s : ℚ) (t : String) (hm : market ∈ markets)
    (hp : parse market = some (s, t)) :
    ∃ ll, lookupMap (markets.foldl (build_step parse) acc) t = some ll ∧
      (s, market) ∈ ll := by
  induction markets generalizing acc with
  | nil => cases hm
  | cons m ms ih =>
    rcases List.mem_cons.mp hm with rfl | hm'
    · simp only [List.foldl_cons, build_step, hp]
      refine build_foldl_mem_preserved parse ms _ t (s, market) _
        (lookupMap_addToMap_self acc t (s, market)) ?_
      exact List.mem_append_right _ (List.mem_singleton.mpr rfl)
    · simp only [List.foldl_cons]
      exact ih (build_step parse acc m) hm'

lemma lookupMap_mem {γ : Type} (m : List (String × γ)) (t : String) (v : γ)
    (h : lookupMap m t = some v) : (t, v) ∈ m := by
  induction m with
  | nil => simp [lookupMap] at h
  | cons hd tl ih =>
    obtain ⟨k, w⟩ := hd
    by_cases hk : k = t
    · subst hk
      simp [lookupMap] at h
      subst h
      exact List.mem_cons_self _ _
    · simp only [lookupMap, if_neg hk] at h
      exact List.mem_cons_of_mem _ (ih h)

/-- C6: for any Limitless market and Polymarket market parsing to the same
time slot whose strikes differ by at most the threshold — inclusively, so
exact equality with the threshold qualifies — the corresponding
`MarketMatch` (with `strike_diff = |sl − sp|`) is emitted, for every such
cross-product pair; and the strike difference is symmetric. -/
theorem find_matching_markets_complete {α β : Type} (max_strike_diff : ℚ)
    (parseLim : α → Option (ℚ × String)) (parsePoly : β → Option (ℚ × String))
    (lim_markets : List α) (poly_markets : List β)
    (lm : α) (pm : β) (sl sp : ℚ) (t : String)
    (hlm : lm ∈ lim_markets) (hpl : parseLim lm = some (sl, t))
    (hpm : pm ∈ poly_markets) (hpp : parsePoly pm = some (sp, t))
    (hdiff : |sl - sp| ≤ max_strike_diff) :
    MarketMatch.mk lm pm sl sp (|sl - sp|) t
      ∈ find_matching_markets max_strike_diff parseLim parsePoly
          (.ok lim_markets) (.ok poly_markets) ∧
    |sl - sp| = |sp - sl| := by
  refine ⟨?_, abs_sub_comm sl sp⟩
  obtain ⟨ll, hll, hxl⟩ := build_foldl_mem parseLim lim_markets [] lm sl t hlm hpl
  obtain ⟨pl, hplk, hxp⟩ := build_foldl_mem parsePoly poly_markets [] pm sp t hpm hpp
  simp only [find_matching_markets, build_time_strike_map]
  apply List.mem_flatMap.mpr
  refine ⟨(t, ll), lookupMap_mem _ _ _ hll, ?_⟩
  simp only [hplk]
  apply List.mem_flatMap.mpr
  refine ⟨(sl, lm), hxl, ?_⟩
  apply List.mem_filterMap.mpr
  refine ⟨(sp, pm), hxp, ?_⟩
  rw [if_pos hdiff]

/-- C6 witness: strike difference exactly at the threshold (`|100 − 99| = 1`
with threshold `1`) is matched, and the difference is symmetric. -/
theorem find_matching_markets_complete_witness :
    MarketMatch.mk ((100 : ℚ), "10:00") ((99 : ℚ), "10:00") 100 99 (|(100 : ℚ) - 99|) "10:00"
      ∈ find_matching_markets (α := ℚ × String) (β := ℚ × String) 1 some some
          (.ok [((100 : ℚ), "10:00")]) (.ok [((99 : ℚ), "10:00")]) ∧
    |(100 : ℚ) - 99| = |(99 : ℚ) - 100| :=
  find_matching_markets_complete 1 some some _ _ ((100 : ℚ), "10:00")
    ((99 : ℚ), "10:00") 100 99 "10:00" (List.mem_singleton.mpr rfl) rfl
    (List.mem_singleton.mpr rfl) rfl (by norm_num)

/-! ## TTL cache (`src/utils/cache.py`)

`AsyncCache` holds a dict from string keys to `CacheEntry`.  A stored Python
value may itself be `None`, so the value domain is `Option β`.  The dict is
an insertion-ordered association list with unique keys; `datetime.now()`
readings are explicit rational arguments, one per `now()` call site.
`get` and `get_or_fetch` return the (value, post-state) pair, and
`cleanup_expired` the (count, post-state) pair, making the method's
mutation of `self._cache` explicit. -/

/-- `CacheEntry` dataclass: a stored Python value with its expiry instant. -/
structure CacheEntry (β : Type) where
  value : Option β
  expires_at : ℚ
deriving DecidableEq, Repr

/-- The `self._cache` dict. -/
abbrev Cache (β : Type) := List (String × CacheEntry β)

/-- `key in self._cache` / `self._cache[key]`. -/
def cacheFind {β : Type} (c : Cache β) (key : String) : Option (CacheEntry β) :=
  match c with
  | [] => none
  | (k, e) :: rest => if k = key then some e else cacheFind rest key

/-- `self._cache.pop(key, None)` / `del self._cache[key]`: drop the (unique)
entry for `key`. -/
def cacheErase {β : Type} (c : Cache β) (key : String) : Cache β :=
  match c with
  | [] => []
  | (k, e) :: rest => if k = key then rest else (k, e) :: cacheErase rest key

/-- `self._cache[key] = entry`: overwrite in place, or append a new key. -/
def cacheInsert {β : Type} (c : Cache β) (key : String) (e : CacheEntry β) :
    Cache β :=
  match c with
  | [] => [(key, e)]
  | (k, e') :: rest =>
    if k = key then (key, e) :: rest else (k, e') :: cacheInsert rest key e

/-- `AsyncCache.get`: return the live entry's value; a present-but-expired
entry is evicted and `None` returned; a missing key returns `None`. -/
def Cache.get {β : Type} (c : Cache β) (key : String) (now : ℚ) :
    Option β × Cache β :=
  match cacheFind c key with
  | some entry =>
    if now < entry.expires_at then (entry.value, c) else (none, cacheErase c key)
  | none => (none, c)

/-- `AsyncCache.set`: store the value with expiry `now + (ttl or self._ttl)`
(Python `or`: an explicit ttl of `0` falls back to the default). -/
def Cache.set {β : Type} (c : Cache β) (key : String) (value : Option β)
    (ttl : Option ℚ) (default_ttl now : ℚ) : Cache β :=
  cacheInsert c key
    ⟨value, now + match ttl with
      | none => default_ttl
      | some t => if t = 0 then default_ttl else t⟩

/-- `AsyncCache.get_or_fetch`: return the cached value if `get` produced one
(`is not None`); otherwise use the producer's result `fetched`, store it
with the default TTL, and return it. -/
def Cache.get_or_fetch {β : Type} (c : Cache β) (key : String)
    (fetched : Option β) (default_ttl now now' : ℚ) : Option β × Cache β :=
  match Cache.get c key now with
  | (some v, c1) => (some v, c1)
  | (none, c1) => (fetched, Cache.set c1 key fetched none default_ttl now')

/-- `AsyncCache.cleanup_expired`: collect the keys with `now >= expires_at`,
delete each, and return their count. -/
def Cache.cleanup_expired {β : Type} (c : Cache β) (now : ℚ) : ℕ × Cache β :=
  let expired := (c.filter (fun kv => decide (kv.2.expires_at ≤ now))).map Prod.fst
  (expired.length, expired.foldl (fun acc k => cacheErase acc k) c)

lemma cacheFind_cacheInsert_self {β : Type} (c : Cache β) (key : String)
    (e : CacheEntry β) : cacheFind (cacheInsert c key e) key = some e := by
  induction c with
  | nil => simp [cacheInsert, cacheFind]
  | cons hd tl ih =>
    obtain ⟨k, e'⟩ := hd
    by_cases hk : k = key
    · subst hk
      simp [cacheInsert, cacheFind]
    · simp [cacheInsert, cacheFind, hk, ih]

lemma cacheErase_eq_filter {β : Type} (c : Cache β) (key : String)
    (hnd : (c.map Prod.fst).Nodup) :
    cacheErase c key = c.filter (fun kv => decide (kv.1 ≠ key)) := by
  induction c with
  | nil => rfl
  | cons hd tl ih =>
    obtain ⟨k, e⟩ := hd
    simp only [List.map_cons, List.nodup_cons] at hnd
    obtain ⟨hknotin, hnd'⟩ := hnd
    by_cases hk : k = key
    · subst hk
      have hfe : List.filter (fun kv : String × CacheEntry β => !decide (kv.1 = k))
          tl = tl := by
        refine List.filter_eq_self.mpr (fun kv hkv => ?_)
        have hne : kv.1 ≠ k := fun hc => hknotin (List.mem_map.mpr ⟨kv, hkv, hc⟩)
        simpa using hne
      simp [cacheErase, List.filter_cons, hfe]
    · simp [cacheErase, List.filter_cons, hk, ih hnd']

lemma foldl_cacheErase_eq_filter {β : Type} (ks : List String) (c : Cache β)
    (hnd : (c.map Prod.fst).Nodup) :
    ks.foldl (fun acc k => cacheErase acc k) c
      = c.filter (fun kv => decide (kv.1 ∉ ks)) := by
  induction ks generalizing c with
  | nil => simp
  | cons k ks ih =>
    simp only [List.foldl_cons]
    rw [cacheErase_eq_filter c k hnd]
    have hnd2 : (((c.filter (fun kv => decide (kv.1 ≠ k))).map Prod.fst)).Nodup :=
      List.Nodup.sublist ((List.filter_sublist c).map Prod.fst) hnd
    rw [ih _ hnd2, List.filter_filter]
    apply List.filter_congr
    intro kv _
    rw [← Bool.decide_and, decide_eq_decide]
    simp only [List.mem_cons, not_or]
    tauto

/-- C8: a value set with a non-zero TTL `t` is returned by `get` strictly
before `now + t` and absent at or after that expiry; `get` on a
present-but-expired entry evicts it and returns absence; and
`cleanup_expired` leaves exactly the entries whose expiry is after `now`
and returns the number of entries whose expiry is at or before `now`. -/
theorem cache_ttl_spec {β : Type} :
    (∀ (c : Cache β) (k : String) (v : Option β) (t d now now' : ℚ),
      t ≠ 0 → now' < now + t →
      (Cache.get (Cache.set c k v (some t) d now) k now').1 = v) ∧
    (∀ (c : Cache β) (k : String) (v : Option β) (t d now now' : ℚ),
      t ≠ 0 → now + t ≤ now' →
      (Cache.get (Cache.set c k v (some t) d now) k now').1 = none) ∧
    (∀ (c : Cache β) (k : String) (e : CacheEntry β) (now : ℚ),
      cacheFind c k = some e → e.expires_at ≤ now →
      Cache.get c k now = (none, cacheErase c k)) ∧
    (∀ (c : Cache β) (now : ℚ), (c.map Prod.fst).Nodup →
      (Cache.cleanup_expired c now).2
          = c.filter (fun kv => decide (now < kv.2.expires_at)) ∧
      (Cache.cleanup_expired c now).1
          = (c.filter (fun kv => decide (kv.2.expires_at ≤ now))).length) := by
  refine ⟨?_, ?_, ?_, ?_⟩
  · intro c k v t d now now' ht hlt
    have hfind := cacheFind_cacheInsert_self c k (⟨v, now + t⟩ : CacheEntry β)
    simp only [Cache.set, if_neg ht]
    simp only [Cache.get, hfind, if_pos hlt]
  · intro c k v t d now now' ht hle
    have hfind := cacheFind_cacheInsert_self c k (⟨v, now + t⟩ : CacheEntry β)
    simp only [Cache.set, if_neg ht]
    simp only [Cache.get, hfind, if_neg (not_lt.mpr hle)]
  · intro c k e now hfind hexp
    simp only [Cache.get, hfind, if_neg (not_lt.mpr hexp)]
  · intro c now hnd
    constructor
    · show List.foldl _ c _ = _
      rw [foldl_cacheErase_eq_filter _ c hnd]
      apply List.filter_congr
      intro kv hkv
      rw [decide_eq_decide]
      constructor
      · intro hnotin
        by_contra hnlt
        exact hnotin (List.mem_map.mpr
          ⟨kv, List.mem_filter.mpr ⟨hkv, by simpa using not_lt.mp hnlt⟩, rfl⟩)
      · intro hlt hin
        obtain ⟨kv', hkv'f, hfst⟩ := List.mem_map.mp hin
        obtain ⟨hkv'c, hexp'⟩ := List.mem_filter.mp hkv'f
        have heq : kv' = kv := List.inj_on_of_nodup_map hnd hkv'c hkv hfst
        subst heq
        simp only [decide_eq_true_eq] at hexp'
        exact absurd hlt (not_lt.mpr hexp')
    · show List.length _ = _
      rw [List.length_map]

/-- C8 witness: a value stored at time `0` with TTL `10` is live at time `9`
and gone at time `10`; an expired entry is evicted by `get`; and on a
two-entry cache at time `10`, cleanup keeps exactly the unexpired entry and
reports one removal. -/
theorem cache_ttl_spec_witness :
    (Cache.get (Cache.set ([] : Cache ℕ) "price" (some 5) (some 10) 7 0)
      "price" 9).1 = some 5 ∧
    (Cache.get (Cache.set ([] : Cache ℕ) "price" (some 5) (some 10) 7 0)
      "price" 10).1 = none ∧
    Cache.get [("price", (⟨some 5, 3⟩ : CacheEntry ℕ))] "price" 3
      = (none, cacheErase [("price", (⟨some 5, 3⟩ : CacheEntry ℕ))] "price") ∧
    (Cache.cleanup_expired
        [("a", (⟨some 1, 5⟩ : CacheEntry ℕ)), ("b", ⟨some 2, 20⟩)] 10).2
      = List.filter (fun kv => decide ((10 : ℚ) < kv.2.expires_at))
          [("a", (⟨some 1, 5⟩ : CacheEntry ℕ)), ("b", ⟨some 2, 20⟩)] ∧
    (Cache.cleanup_expired
        [("a", (⟨some 1, 5⟩ : CacheEntry ℕ)), ("b", ⟨some 2, 20⟩)] 10).1
      = (List.filter (fun kv => decide (kv.2.expires_at ≤ (10 : ℚ)))
          [("a", (⟨some 1, 5⟩ : CacheEntry ℕ)), ("b", ⟨some 2, 20⟩)]).length :=
  ⟨cache_ttl_spec.1 [] "price" (some 5) 10 7 0 9 (by norm_num) (by norm_num),
   cache_ttl_spec.2.1 [] "price" (some 5) 10 7 0 10 (by norm_num) (by norm_num),
   cache_ttl_spec.2.2.1 [("price", ⟨some 5, 3⟩)] "price" ⟨some 5, 3⟩ 3
     (by decide) (by norm_num),
   (cache_ttl_spec.2.2.2 [("a", ⟨some 1, 5⟩), ("b", ⟨some 2, 20⟩)] 10
     (by decide)).1,
   (cache_ttl_spec.2.2.2 [("a", ⟨some 1, 5⟩), ("b", ⟨some 2, 20⟩)] 10
     (by decide)).2⟩

/-- C10: a live cache entry whose stored Python value is `None` is
indistinguishable from an absent key: `get` returns `None`, and
`get_or_fetch` therefore uses the producer's result and stores it, although
an unexpired entry for the key exists. -/
theorem cache_none_value_refetch {β : Type} (c : Cache β) (k : String)
    (exp : ℚ) (fetched : Option β) (d now now' : ℚ)
    (hfind : cacheFind c k = some ⟨none, exp⟩) (hlive : now < exp) :
    (Cache.get c k now).1 = none ∧
    Cache.get_or_fetch c k fetched d now now'
      = (fetched, Cache.set c k fetched none d now') := by
  have hget : Cache.get c k now = (none, c) := by
    simp only [Cache.get, hfind, if_pos hlive]
  exact ⟨by rw [hget], by simp only [Cache.get_or_fetch, hget]⟩

/-- C10 witness: a live entry holding `None` at key `"quotes"`; the producer
result `some 7` is returned and stored over the live entry. -/
theorem cache_none_value_refetch_witness :
    (Cache.get [("quotes", (⟨none, 50⟩ : CacheEntry ℕ))] "quotes" 1).1 = none ∧
    Cache.get_or_fetch [("quotes", (⟨none, 50⟩ : CacheEntry ℕ))] "quotes"
        (some 7) 10 1 2
      = (some 7, Cache.set [("quotes", (⟨none, 50⟩ : CacheEntry ℕ))] "quotes"
          (some 7) none 10 2) :=
  cache_none_value_refetch [("quotes", ⟨none, 50⟩)] "quotes" 50 (some 7) 10 1 2
    (by decide) (by norm_num)

/-- C8 counterexample: a value set at time `0` with an explicit TTL of `0`
(default TTL `10`) is still returned by `get` at time `0`, which is at or
after the claimed expiry `0 + 0`; Python's `ttl or self._ttl` silently
replaces a zero TTL with the default, so the claim fails at `t = 0`. -/
theorem cache_ttl_zero_fallback_counterexample :
    (0 : ℚ) + 0 ≤ 0 ∧
    (Cache.get (Cache.set ([] : Cache ℕ) "price" (some 5) (some 0) 10 0)
      "price" 0).1 = some 5 := by
  refine ⟨by norm_num, ?_⟩
  norm_num [Cache.set, Cache.get, cacheInsert, cacheFind]
